import Mathlib

/-!
Verification of the WakaTerm NG ignore-pattern engine
(`src/ignore_filter.py`, class `CommandIgnoreFilter`).

The Python code is shallowly embedded:
* file contents are modelled as lists of lines (the code reads line by
  line and always writes newline-terminated lines);
* the file system is an `Option FileState` plus a monotone clock used to
  issue fresh modification times on every write;
* Python's `re` operations used by `_pattern_to_regex` are modelled
  character-exactly (`re.escape` with the Python 3.7+ special-character
  map, `str.replace`, and the class-rebuilding `re.sub`), and
  `re.compile` / `Pattern.match` are modelled by a parser and matcher for
  the regex fragment that `_pattern_to_regex` can produce: literal
  characters, `\c` escapes, character classes of literal members and
  `\s`, the Kleene star, and the trailing group `(?:\s|$)`; a regex the
  parser rejects (e.g. an unterminated character set) models `re.error`;
* exceptions while reading the file (permission/decode errors) are
  modelled by a `readFails` flag on the file state; all engine
  operations are total Lean functions, modelling the fact that the
  Python methods catch every exception.
-/

namespace WakaTerm

/-- The characters Python's `str.strip()` removes (ASCII whitespace). -/
def isPySpace (c : Char) : Bool :=
  c = ' ' || c = '\t' || c = '\n' || c = '\x0d' || c = '\x0b' || c = '\x0c'

/-- Python `str.strip()` on a character list. -/
def pyStripL (s : List Char) : List Char :=
  ((s.dropWhile isPySpace).reverse.dropWhile isPySpace).reverse

/-- Python `str.strip()`. -/
def pyStrip (s : String) : String :=
  ⟨pyStripL s.toList⟩

/-- The special characters of Python 3.7+ `re.escape`
(`_special_chars_map`: `()[]{}?*+-|^$\.&~# \t\n\r\v\f`). -/
def reSpecial (c : Char) : Bool :=
  c = '(' || c = ')' || c = '[' || c = ']' || c = '\x7b' || c = '\x7d' ||
  c = '?' || c = '*' || c = '+' || c = '-' || c = '|' || c = '^' ||
  c = '$' || c = '\\' || c = '.' || c = '&' || c = '~' || c = '#' ||
  c = ' ' || c = '\t' || c = '\n' || c = '\x0d' || c = '\x0b' || c = '\x0c'

/-- `re.escape`: prefix every special character with a backslash. -/
def reEscape : List Char → List Char
  | [] => []
  | c :: rest => if reSpecial c then '\\' :: c :: reEscape rest else c :: reEscape rest

/-- `pattern.replace(r'\*', r'[^\s]*')`: left-to-right non-overlapping
replacement of every occurrence of `\*`. -/
def replaceStar : List Char → List Char
  | [] => []
  | [c] => [c]
  | c :: d :: rest =>
    if c = '\\' ∧ d = '*' then
      '[' :: '^' :: '\\' :: 's' :: ']' :: '*' :: replaceStar rest
    else c :: replaceStar (d :: rest)

/-- `pattern.replace(r'\?', r'[^\s]')`: left-to-right non-overlapping
replacement of every occurrence of `\?`. -/
def replaceQmark : List Char → List Char
  | [] => []
  | [c] => [c]
  | c :: d :: rest =>
    if c = '\\' ∧ d = '?' then
      '[' :: '^' :: '\\' :: 's' :: ']' :: replaceQmark rest
    else c :: replaceQmark (d :: rest)

/-- Helper for the class-rebuilding substitution: the regex
`\\?\[([^\]]+)\\?\]` captures, after the opening bracket, a non-empty
greedy run of non-`]` characters followed by `]` (the greedy group always
swallows a backslash standing before the `]`, so the second `\\?` never
consumes anything).  Returns the captured run and the text after the
closing `]`, or `none` when no `]` follows. -/
def findClose : List Char → Option (List Char × List Char)
  | [] => none
  | c :: rest =>
    if c = ']' then some ([], rest)
    else
      match findClose rest with
      | some (content, after) => some (c :: content, after)
      | none => none

/-- Fuelled worker for `classSub` (fuel is structural so that the
function computes in the kernel; every step consumes at least one input
character, so `s.length` fuel always suffices and the fuel-exhausted
fallback is unreachable from the wrapper). -/
def classSubF : Nat → List Char → List Char
  | _, [] => []
  | 0, s => s
  | fuel + 1, c :: rest =>
    if c = '\\' ∧ rest.head? = some '[' then
      match findClose rest.tail with
      | some (content, after) => '[' :: (content ++ ']' :: classSubF fuel after)
      | none => '\\' :: classSubF fuel rest
    else if c = '[' then
      match findClose rest with
      | some (content, after) => '[' :: (content ++ ']' :: classSubF fuel after)
      | none => '[' :: classSubF fuel rest
    else c :: classSubF fuel rest

/-- `re.sub(r'\\?\[([^\]]+)\\?\]', r'[\1]', pattern)`: scan left to
right; at a (possibly backslash-escaped) `[`, if a matching `]` follows,
replace the whole match by `[` + captured run + `]` (dropping the escape
backslashes) and continue after it; otherwise move on one character. -/
def classSub (s : List Char) : List Char :=
  classSubF s.length s

/-- The trailing group `(?:\s|$)` appended by `_pattern_to_regex`. -/
def boundarySuffix : List Char := ['(', '?', ':', '\\', 's', '|', '$', ')']

/-- `_pattern_to_regex`: escape, rewrite the wildcards `*` and `?`,
rebuild character classes, and anchor as `^…(?:\s|$)`. -/
def patternToRegex (p : String) : List Char :=
  '^' :: (classSub (replaceQmark (replaceStar (reEscape p.toList))) ++ boundarySuffix)

/-- One element of a compiled regex, covering the fragment
`_pattern_to_regex` can produce.  `cls neg lits ws` is a character class
`[…]` (negated when `neg`) whose members are the literal characters
`lits` plus, when `ws`, the whitespace class `\s`; `boundary` is the
trailing group `(?:\s|$)`. -/
inductive RElem where
  | lit : Char → RElem
  | cls : Bool → List Char → Bool → RElem
  | star : RElem → RElem
  | boundary : RElem
  deriving Repr, DecidableEq

/-- Body of a character class: members up to the closing `]`
(a backslash escapes the next member; `\s` adds the whitespace class).
Returns the literal members, the `\s` flag, and the rest of the input;
`none` models `re.error: unterminated character set`. -/
def parseClassBody : List Char → Option (List Char × Bool × List Char)
  | [] => none
  | c :: rest =>
    if c = ']' then some ([], false, rest)
    else if c = '\\' then
      match rest with
      | [] => none
      | d :: rest' =>
        match parseClassBody rest' with
        | some (lits, ws, after) =>
          if d = 's' then some (lits, true, after) else some (d :: lits, ws, after)
        | none => none
    else
      match parseClassBody rest with
      | some (lits, ws, after) => some (c :: lits, ws, after)
      | none => none

/-- A character class after its opening `[` and optional `^`: a `]`
standing first is a literal member, as in Python. -/
def parseClassAt (neg : Bool) (cs1 : List Char) : Option (RElem × List Char) :=
  match cs1 with
  | ']' :: rest =>
    match parseClassBody rest with
    | some (lits, ws, after) => some (RElem.cls neg (']' :: lits) ws, after)
    | none => none
  | _ =>
    match parseClassBody cs1 with
    | some (lits, ws, after) => some (RElem.cls neg lits ws, after)
    | none => none

/-- A character class after its opening `[`: an optional leading `^`
negates the class. -/
def parseClass (cs : List Char) : Option (RElem × List Char) :=
  match cs with
  | '^' :: r => parseClassAt true r
  | _ => parseClassAt false cs

/-- Characters that are regex metacharacters when unescaped; a bare
occurrence outside the recognised constructs makes the parser reject
(such characters reach this position only in regexes that
`_pattern_to_regex` cannot produce, or in invalid ones). -/
def isMeta (c : Char) : Bool :=
  c = '*' || c = '+' || c = '?' || c = '(' || c = ')' || c = '[' ||
  c = '|' || c = '$' || c = '^' || c = '.' || c = '\\' || c = '\x7b' || c = '\x7d'

/-- Parse a regex body (after the leading `^`) into elements, modelling
`re.compile` on the fragment `_pattern_to_regex` produces: the group
`(?:\s|$)`, escapes `\c` (with `\s` the whitespace class; escapes of
non-special letters are rejected, as Python rejects unknown escapes),
character classes, `*` on the preceding element, and literal
characters.  `none` models `re.error`. -/
def parseItemsF : Nat → List Char → Option (List RElem)
  | _, [] => some []
  | 0, _ => none
  | fuel + 1, c :: rest =>
    if c = '(' then
      if rest.take 7 = ['?', ':', '\\', 's', '|', '$', ')'] then
        (parseItemsF fuel (rest.drop 7)).map (fun es => RElem.boundary :: es)
      else none
    else if c = '\\' then
      match rest with
      | [] => none
      | d :: rest' =>
        let e : Option RElem :=
          if d = 's' then some (RElem.cls false [] true)
          else if reSpecial d then some (RElem.lit d)
          else none
        match e with
        | none => none
        | some e =>
          if rest'.head? = some '*' then
            (parseItemsF fuel rest'.tail).map (fun es => RElem.star e :: es)
          else
            (parseItemsF fuel rest').map (fun es => e :: es)
    else if c = '[' then
      match parseClass rest with
      | some (e, after) =>
        if after.head? = some '*' then
          (parseItemsF fuel after.tail).map (fun es => RElem.star e :: es)
        else
          (parseItemsF fuel after).map (fun es => e :: es)
      | none => none
    else if isMeta c then none
    else
      if rest.head? = some '*' then
        (parseItemsF fuel rest.tail).map (fun es => RElem.star (RElem.lit c) :: es)
      else
        (parseItemsF fuel rest).map (fun es => RElem.lit c :: es)

/-- Parse with `cs.length` fuel: every step of `parseItemsF` consumes at
least one character, so this fuel always suffices. -/
def parseItems (cs : List Char) : Option (List RElem) :=
  parseItemsF cs.length cs

/-- `re.compile` of a regex produced by `_pattern_to_regex`: the leading
`^` anchor followed by the element list. -/
def parseRegex (cs : List Char) : Option (List RElem) :=
  if cs.head? = some '^' then parseItems cs.tail else none

/-- The full compilation of one pattern:
`re.compile(self._pattern_to_regex(pattern), re.IGNORECASE)`;
`none` models the `re.error` branch that skips the pattern. -/
def compilePattern (p : String) : Option (List RElem) :=
  parseRegex (patternToRegex p)

/-- Case-insensitive character comparison (`re.IGNORECASE`). -/
def lowerEq (c d : Char) : Bool := c.toLower = d.toLower

/-- Membership test of a character class. -/
def clsMatch (neg : Bool) (lits : List Char) (ws : Bool) (c : Char) : Bool :=
  let inside := lits.any (fun d => lowerEq d c) || (ws && isPySpace c)
  if neg then !inside else inside

/-- Single-character test for the element under a star. -/
def elemMatchOne : RElem → Char → Bool
  | RElem.lit c, d => lowerEq c d
  | RElem.cls neg lits ws, d => clsMatch neg lits ws d
  | _, _ => false

/-- Python `$` (no MULTILINE): end of string, or just before a final
newline. -/
def dollarAt (s : List Char) : Bool := s.isEmpty || s = ['\n']

/-- Fuelled worker for the matcher: every recursive call strictly
decreases `es.length + s.length`, so that much fuel always suffices. -/
def rmatchF : Nat → List RElem → List Char → Bool
  | _, [], _ => true
  | 0, _ :: _, _ => false
  | fuel + 1, RElem.lit c :: es', s =>
    match s with
    | d :: s' => lowerEq c d && rmatchF fuel es' s'
    | [] => false
  | fuel + 1, RElem.cls neg lits ws :: es', s =>
    match s with
    | d :: s' => clsMatch neg lits ws d && rmatchF fuel es' s'
    | [] => false
  | fuel + 1, RElem.star e :: es', s =>
    rmatchF fuel es' s ||
      (match s with
       | d :: s' => elemMatchOne e d && rmatchF fuel (RElem.star e :: es') s'
       | [] => false)
  | fuel + 1, RElem.boundary :: es', s =>
    (match s with
     | d :: s' => isPySpace d && rmatchF fuel es' s'
     | [] => false) ||
    (dollarAt s && rmatchF fuel es' s)

/-- `Pattern.match`: does the element list match a prefix of `s`
(with backtracking, greedy `*`, and `boundary` = `(?:\s|$)`)?
An exhausted element list means the match succeeded. -/
def rmatch (es : List RElem) (s : List Char) : Bool :=
  rmatchF (es.length + s.length) es s

/-- Does a compiled pattern match a command (already stripped)? -/
def regexMatches (es : List RElem) (c : String) : Bool :=
  rmatch es c.toList

/-- The ignore file on disk, modelled as its list of lines (every write
the engine performs is newline-terminated, so contents round-trip
through lines).  `readFails` models an exception on opening/reading the
file (permission error, decode error, …). -/
structure FileState where
  lines : List String
  mtime : Nat
  readFails : Bool
  deriving Repr, DecidableEq

/-- File system: the optional ignore file plus a monotone clock that
issues a fresh modification time for every write. -/
structure FSState where
  file : Option FileState
  clock : Nat
  deriving Repr, DecidableEq

/-- In-memory state of `CommandIgnoreFilter` (compiled `re.Pattern`s are
their parsed element lists). -/
structure Filter where
  patterns : List String
  negation_patterns : List String
  compiled_patterns : List (List RElem)
  compiled_negation_patterns : List (List RElem)
  last_mtime : Option Nat
  deriving Repr, DecidableEq

/-- The lines of `default_content` written by
`_create_default_ignore_file`. -/
def defaultLines : List String :=
  [ "# WakaTerm Ignore Patterns",
    "# This file uses .gitignore-style syntax to specify commands to ignore",
    "# Lines starting with # are comments",
    "# Use ! to negate patterns (include commands that would otherwise be ignored)",
    "",
    "# System and shell built-ins",
    "cd",
    "pwd",
    "ls",
    "ll",
    "la",
    "clear",
    "exit",
    "logout",
    "history",
    "",
    "# Navigation and basic file operations (uncomment if you want to ignore these)",
    "# tree",
    "# exa",
    "# lsd",
    "",
    "# Temporary or testing commands",
    "test*",
    "tmp*",
    "",
    "# Sensitive commands (uncomment to ignore)",
    "# ssh*",
    "# scp*",
    "# rsync*",
    "",
    "# Version control status checks (uncomment if you want to ignore frequent status checks)",
    "# git status",
    "# git diff",
    "# git log*",
    "",
    "# Package manager update checks",
    "# apt update",
    "# brew update",
    "# pacman -Sy",
    "",
    "# Example: Ignore all commands starting with \"debug_\"",
    "debug_*",
    "",
    "# Example: Ignore specific command with arguments",
    "# docker ps -a",
    "",
    "# Example negation: Always track python commands even if other python* patterns exist",
    "# !python",
    "# !python3" ]

/-- The line-parsing loop of `_load_patterns`: strip each line, skip
blanks and `#` comments, route `!`-lines (with the `!` stripped and the
remainder re-stripped, kept only if non-empty) to the negation list and
everything else, verbatim as stripped, to the ignore list. -/
def parseLines : List String → List String × List String
  | [] => ([], [])
  | l :: rest =>
    let pr := parseLines rest
    let s := pyStripL l.toList
    if s.isEmpty then pr
    else if s.head? = some '#' then pr
    else if s.head? = some '!' then
      let p := pyStripL s.tail
      if p.isEmpty then pr else (pr.1, String.mk p :: pr.2)
    else (String.mk s :: pr.1, pr.2)

/-- `_load_patterns` (which inlines `_create_default_ignore_file` and
`_compile_patterns`):
* no file → write the default file and return with the in-memory state
  untouched (`_last_mtime` in particular is not updated);
* file unchanged since the last load → return unchanged;
* otherwise record the new mtime, then read and parse; a read failure
  (the `except` branch) empties all four lists;
* on success, replace both pattern lists and recompile, skipping
  patterns whose regex does not compile. -/
def loadPatterns (f : Filter) (fs : FSState) : Filter × FSState :=
  match fs.file with
  | none =>
    (f, { file := some { lines := defaultLines, mtime := fs.clock, readFails := false },
          clock := fs.clock + 1 })
  | some file =>
    if f.last_mtime = some file.mtime then (f, fs)
    else
      let f1 := { f with last_mtime := some file.mtime }
      if file.readFails then
        ({ f1 with patterns := [], negation_patterns := [],
                   compiled_patterns := [], compiled_negation_patterns := [] }, fs)
      else
        let pr := parseLines file.lines
        ({ f1 with patterns := pr.1, negation_patterns := pr.2,
                   compiled_patterns := pr.1.filterMap compilePattern,
                   compiled_negation_patterns := pr.2.filterMap compilePattern }, fs)

/-- The filter as freshly constructed (`__init__` before its
`_load_patterns` call). -/
def emptyFilter : Filter :=
  { patterns := [], negation_patterns := [], compiled_patterns := [],
    compiled_negation_patterns := [], last_mtime := none }

/-- `CommandIgnoreFilter.__init__`: initial load. -/
def mkFilter (fs : FSState) : Filter × FSState :=
  loadPatterns emptyFilter fs

/-- `should_ignore`: empty/whitespace-only commands are always ignored;
otherwise reload if needed, test the stripped command against every
compiled ignore pattern, and let any matching negation pattern override
a tentative ignore. -/
def should_ignore (f : Filter) (fs : FSState) (command : String) :
    Bool × Filter × FSState :=
  if (pyStripL command.toList).isEmpty then (true, f, fs)
  else
    let r := loadPatterns f fs
    let c := pyStripL command.toList
    let ignored := r.1.compiled_patterns.any (fun es => rmatch es c)
    if ignored then
      if r.1.compiled_negation_patterns.any (fun es => rmatch es c) then
        (false, r.1, r.2)
      else (true, r.1, r.2)
    else (false, r.1, r.2)

/-- `add_pattern`: append `"\n" + pattern + "\n"` to the file (creating
it when absent; in the lines model of a newline-terminated file this
appends an empty line and the pattern line) and reload. -/
def add_pattern (f : Filter) (fs : FSState) (p : String) : Filter × FSState :=
  let newfile : FileState :=
    match fs.file with
    | none => { lines := ["", p], mtime := fs.clock, readFails := false }
    | some file =>
      { lines := file.lines ++ ["", p], mtime := fs.clock, readFails := file.readFails }
  loadPatterns f { file := some newfile, clock := fs.clock + 1 }

/-- Does a line match `remove_pattern`'s criterion for `p` — its
stripped form equals `p` or `!p`? -/
def removeMatches (p l : String) : Bool :=
  pyStrip l == p || pyStrip l == "!" ++ p

/-- `remove_pattern`: read all lines, keep those whose stripped form is
neither `pattern` nor `"!" + pattern`; if any line was dropped, rewrite
the file with the kept lines and reload; return whether a line was
dropped.  A missing file or a read failure returns `False`. -/
def remove_pattern (f : Filter) (fs : FSState) (p : String) :
    Bool × Filter × FSState :=
  match fs.file with
  | none => (false, f, fs)
  | some file =>
    if file.readFails then (false, f, fs)
    else
      let new_lines := file.lines.filter (fun l => !removeMatches p l)
      let found := file.lines.any (removeMatches p)
      if found then
        let fs1 : FSState :=
          { file := some { lines := new_lines, mtime := fs.clock,
                           readFails := file.readFails },
            clock := fs.clock + 1 }
        let r := loadPatterns f fs1
        (true, r.1, r.2)
      else (false, f, fs)

/-- `list_patterns`: reload, then return the ignore patterns followed by
the negation patterns each re-prefixed with `!`. -/
def list_patterns (f : Filter) (fs : FSState) : List String × Filter × FSState :=
  let r := loadPatterns f fs
  (r.1.patterns ++ r.1.negation_patterns.map (fun p => "!" ++ p), r.1, r.2)

/-- A file system holding an existing readable ignore file with the
given lines (for concrete scenarios). -/
def fsWithLines (ls : List String) : FSState :=
  { file := some { lines := ls, mtime := 0, readFails := false }, clock := 1 }

/-- The filter constructed over `fsWithLines ls`. -/
def filterOf (ls : List String) : Filter :=
  (mkFilter (fsWithLines ls)).1

/-- A pattern without any of the gitignore wildcard characters
`*`, `?`, `[`, `]`. -/
def noWild (p : String) : Prop :=
  ∀ c ∈ p.toList, c ≠ '*' ∧ c ≠ '?' ∧ c ≠ '[' ∧ c ≠ ']'

instance (p : String) : Decidable (noWild p) := by
  unfold noWild
  infer_instance

/-! ## Helper lemmas -/

theorem mem_reEscape {c : Char} : ∀ {l : List Char}, c ∈ reEscape l → c = '\\' ∨ c ∈ l := by
  intro l
  induction l with
  | nil => intro h; simp [reEscape] at h
  | cons d rest ih =>
    intro h
    unfold reEscape at h
    split at h
    · simp only [List.mem_cons] at h
      rcases h with h | h | h
      · exact Or.inl h
      · exact Or.inr (by simp [h])
      · rcases ih h with h' | h'
        · exact Or.inl h'
        · exact Or.inr (List.mem_cons_of_mem _ h')
    · simp only [List.mem_cons] at h
      rcases h with h | h
      · exact Or.inr (by simp [h])
      · rcases ih h with h' | h'
        · exact Or.inl h'
        · exact Or.inr (List.mem_cons_of_mem _ h')

theorem replaceStar_id : ∀ {l : List Char}, '*' ∉ l → replaceStar l = l := by
  intro l
  induction l with
  | nil => intro _; rfl
  | cons c rest ih =>
    intro h
    rw [List.mem_cons, not_or] at h
    obtain ⟨hc, hrest⟩ := h
    cases rest with
    | nil => rfl
    | cons d rest' =>
      have hd : d ≠ '*' := by
        intro hd
        exact hrest (by simp [hd])
      unfold replaceStar
      rw [if_neg (by rintro ⟨-, h2⟩; exact hd h2)]
      rw [ih hrest]

theorem replaceQmark_id : ∀ {l : List Char}, '?' ∉ l → replaceQmark l = l := by
  intro l
  induction l with
  | nil => intro _; rfl
  | cons c rest ih =>
    intro h
    rw [List.mem_cons, not_or] at h
    obtain ⟨hc, hrest⟩ := h
    cases rest with
    | nil => rfl
    | cons d rest' =>
      have hd : d ≠ '?' := by
        intro hd
        exact hrest (by simp [hd])
      unfold replaceQmark
      rw [if_neg (by rintro ⟨-, h2⟩; exact hd h2)]
      rw [ih hrest]

theorem classSubF_id : ∀ (fuel : Nat) {s : List Char}, '[' ∉ s → classSubF fuel s = s := by
  intro fuel
  induction fuel with
  | zero =>
    intro s _
    cases s <;> rfl
  | succ fuel ih =>
    intro s h
    cases s with
    | nil => rfl
    | cons c rest =>
      rw [List.mem_cons, not_or] at h
      obtain ⟨hc, hrest⟩ := h
      have hh : ¬(c = '\\' ∧ rest.head? = some '[') := by
        rintro ⟨-, h2⟩
        cases rest with
        | nil => simp at h2
        | cons d r =>
          simp only [List.head?] at h2
          exact hrest (by simp [Option.some.injEq] at h2; simp [h2])
      unfold classSubF
      rw [if_neg hh, if_neg (fun h1 => hc h1.symm)]
      rw [ih hrest]

theorem classSub_id {s : List Char} (h : '[' ∉ s) : classSub s = s :=
  classSubF_id s.length h

theorem isMeta_special {c : Char} (h : isMeta c = true) : reSpecial c = true := by
  simp only [isMeta, Bool.or_eq_true, decide_eq_true_eq] at h
  repeat' rcases h with h | h
  all_goals decide

theorem reEscape_head_ne_star : ∀ (l : List Char),
    (reEscape l ++ boundarySuffix).head? ≠ some '*' := by
  intro l
  cases l with
  | nil => simp [reEscape, boundarySuffix]
  | cons d l' =>
    unfold reEscape
    by_cases hd : reSpecial d = true
    · rw [if_pos hd]
      simp
    · rw [if_neg hd]
      simp only [List.cons_append, List.head?_cons]
      intro h
      simp only [Option.some.injEq] at h
      subst h
      exact hd (by decide)

theorem parseItemsF_escaped : ∀ (l : List Char) (fuel : Nat),
    (reEscape l ++ boundarySuffix).length ≤ fuel →
    parseItemsF fuel (reEscape l ++ boundarySuffix) =
      some (l.map RElem.lit ++ [RElem.boundary]) := by
  intro l
  induction l with
  | nil =>
    intro fuel hf
    simp only [reEscape, List.nil_append, boundarySuffix, List.length_cons] at hf ⊢
    cases fuel with
    | zero => simp at hf
    | succ f => simp [parseItemsF]
  | cons c l' ih =>
    intro fuel hf
    by_cases hc : reSpecial c = true
    · have he : reEscape (c :: l') = '\\' :: c :: reEscape l' := by
        simp only [reEscape]
        rw [if_pos hc]
      rw [he] at hf ⊢
      simp only [List.cons_append, List.length_cons] at hf
      cases fuel with
      | zero => omega
      | succ f =>
        have hcs : c ≠ 's' := by
          intro h
          subst h
          exact absurd hc (by decide)
        simp only [parseItemsF, List.append_eq, List.cons_append]
        rw [if_neg (by decide : ¬('\\' : Char) = '(')]
        rw [if_pos trivial]
        rw [if_neg hcs, if_pos hc]
        dsimp only
        rw [if_neg (reEscape_head_ne_star l')]
        rw [ih f (by omega)]
        simp
    · have he : reEscape (c :: l') = c :: reEscape l' := by
        simp only [reEscape]
        rw [if_neg hc]
      rw [he] at hf ⊢
      simp only [List.cons_append, List.length_cons] at hf
      cases fuel with
      | zero => omega
      | succ f =>
        simp only [parseItemsF, List.append_eq, List.cons_append]
        rw [if_neg (show c ≠ '(' by intro h; subst h; exact hc (by decide))]
        rw [if_neg (show c ≠ '\\' by intro h; subst h; exact hc (by decide))]
        rw [if_neg (show c ≠ '[' by intro h; subst h; exact hc (by decide))]
        rw [if_neg (show ¬isMeta c = true by intro h; exact hc (isMeta_special h))]
        rw [if_neg (reEscape_head_ne_star l')]
        rw [ih f (by omega)]
        simp

theorem compilePattern_noWild (p : String) (h : noWild p) :
    compilePattern p = some (p.toList.map RElem.lit ++ [RElem.boundary]) := by
  unfold compilePattern patternToRegex
  have h1 : '*' ∉ reEscape p.toList := by
    intro hm
    rcases mem_reEscape hm with h' | h'
    · exact absurd h' (by decide)
    · exact (h _ h').1 rfl
  have h2 : '?' ∉ reEscape p.toList := by
    intro hm
    rcases mem_reEscape hm with h' | h'
    · exact absurd h' (by decide)
    · exact (h _ h').2.1 rfl
  have h3 : '[' ∉ reEscape p.toList := by
    intro hm
    rcases mem_reEscape hm with h' | h'
    · exact absurd h' (by decide)
    · exact (h _ h').2.2.1 rfl
  rw [replaceStar_id h1, replaceQmark_id h2, classSub_id h3]
  unfold parseRegex
  simp only [List.head?_cons, if_pos rfl, List.tail_cons]
  unfold parseItems
  exact parseItemsF_escaped p.toList _ (Nat.le_refl _)

theorem rmatchF_lits : ∀ (l : List Char) (fuel : Nat) (t : List Char), l.length < fuel →
    (t = [] ∨ ∃ d t', t = d :: t' ∧ isPySpace d = true) →
    rmatchF fuel (l.map RElem.lit ++ [RElem.boundary]) (l ++ t) = true := by
  intro l
  induction l with
  | nil =>
    intro fuel t hf ht
    cases fuel with
    | zero => omega
    | succ f =>
      rcases ht with rfl | ⟨d, t', rfl, hd⟩
      · simp [rmatchF, dollarAt]
      · simp [rmatchF, hd]
  | cons c l' ih =>
    intro fuel t hf ht
    cases fuel with
    | zero => simp at hf
    | succ f =>
      simp only [List.map_cons, List.cons_append, List.append_eq, rmatchF]
      rw [ih f t (by simp only [List.length_cons] at hf; omega) ht]
      simp [lowerEq]

theorem parseLines_append : ∀ (xs ys : List String),
    parseLines (xs ++ ys) =
      ((parseLines xs).1 ++ (parseLines ys).1,
       (parseLines xs).2 ++ (parseLines ys).2) := by
  intro xs ys
  induction xs with
  | nil => simp [parseLines]
  | cons l xs ih =>
    simp only [List.cons_append, parseLines, List.append_eq]
    rw [ih]
    by_cases h1 : pyStripL l.data = []
    · simp [h1]
    · by_cases h2 : (pyStripL l.data).head? = some '#'
      · simp [h1, h2]
      · by_cases h3 : (pyStripL l.data).head? = some '!'
        · by_cases h4 : pyStripL (pyStripL l.data).tail = []
          · simp [h1, h2, h3, h4]
          · simp [h1, h2, h3, h4]
        · simp [h1, h2, h3]

theorem loadPatterns_file (f : Filter) (fs : FSState) (file : FileState)
    (hf : fs.file = some file) :
    (loadPatterns f fs).2 = fs ∧
    (loadPatterns f fs).1.last_mtime = some file.mtime := by
  unfold loadPatterns
  rw [hf]
  dsimp only
  by_cases hm : f.last_mtime = some file.mtime
  · rw [if_pos hm]
    exact ⟨rfl, hm⟩
  · rw [if_neg hm]
    by_cases hr : file.readFails = true
    · rw [if_pos hr]
      exact ⟨rfl, rfl⟩
    · rw [if_neg hr]
      exact ⟨rfl, rfl⟩

theorem loadPatterns_stable (f : Filter) (fs : FSState) (file : FileState)
    (hf : fs.file = some file) (hm : f.last_mtime = some file.mtime) :
    loadPatterns f fs = (f, fs) := by
  unfold loadPatterns
  rw [hf]
  dsimp only
  rw [if_pos hm]

theorem shouldIgnore_eval (f : Filter) (fs : FSState) (cmd : String)
    (hne : (pyStripL cmd.toList).isEmpty = false) :
    should_ignore f fs cmd =
      (if (loadPatterns f fs).1.compiled_patterns.any
            (fun es => rmatch es (pyStripL cmd.toList)) then
         if (loadPatterns f fs).1.compiled_negation_patterns.any
              (fun es => rmatch es (pyStripL cmd.toList)) then false else true
       else false,
       (loadPatterns f fs).1, (loadPatterns f fs).2) := by
  unfold should_ignore
  have hne2 : ¬(pyStripL cmd.toList).isEmpty = true := by
    rw [hne]
    simp
  rw [if_neg hne2]
  dsimp only
  split_ifs <;> rfl

/-! ## Claim theorems -/

/-- C9: For every command string that is empty or consists only of
whitespace, `should_ignore` returns `True` (and touches neither the
filter state nor the file system), regardless of which patterns are
loaded. -/
theorem shouldIgnore_empty_always_true (f : Filter) (fs : FSState) (cmd : String)
    (h : (pyStripL cmd.toList).isEmpty = true) :
    should_ignore f fs cmd = (true, f, fs) := by
  unfold should_ignore
  rw [if_pos h]

theorem shouldIgnore_empty_always_true_witness :
    (pyStripL "  \t ".toList).isEmpty = true ∧
    should_ignore emptyFilter { file := none, clock := 0 } "  \t " =
      (true, emptyFilter, { file := none, clock := 0 }) :=
  ⟨rfl, shouldIgnore_empty_always_true emptyFilter { file := none, clock := 0 } "  \t " rfl⟩

/-- C3: For every pattern state and every non-empty (after stripping)
command, if some compiled ignore pattern matches and some compiled
negation pattern also matches then `should_ignore` returns `False`
(negation unconditionally wins); and if no compiled ignore pattern
matches, `should_ignore` returns `False` as well.  The pattern lists are
the ones in effect after the internal reload. -/
theorem shouldIgnore_negation_wins (f : Filter) (fs : FSState) (cmd : String)
    (hne : (pyStripL cmd.toList).isEmpty = false) :
    ((loadPatterns f fs).1.compiled_patterns.any
        (fun es => rmatch es (pyStripL cmd.toList)) = true →
      (loadPatterns f fs).1.compiled_negation_patterns.any
        (fun es => rmatch es (pyStripL cmd.toList)) = true →
      (should_ignore f fs cmd).1 = false) ∧
    ((loadPatterns f fs).1.compiled_patterns.any
        (fun es => rmatch es (pyStripL cmd.toList)) = false →
      (should_ignore f fs cmd).1 = false) := by
  rw [shouldIgnore_eval f fs cmd hne]
  constructor
  · intro hi hn
    dsimp only
    rw [if_pos hi, if_pos hn]
  · intro hi
    dsimp only
    rw [if_neg (by rw [hi]; simp)]

theorem shouldIgnore_negation_wins_witness :
    (pyStripL "git status".toList).isEmpty = false ∧
    ((loadPatterns (filterOf ["git*", "!git status"]) (fsWithLines ["git*", "!git status"])).1.compiled_patterns.any
        (fun es => rmatch es (pyStripL "git status".toList)) = true ∧
     (loadPatterns (filterOf ["git*", "!git status"]) (fsWithLines ["git*", "!git status"])).1.compiled_negation_patterns.any
        (fun es => rmatch es (pyStripL "git status".toList)) = true) ∧
    (should_ignore (filterOf ["git*", "!git status"]) (fsWithLines ["git*", "!git status"]) "git status").1 = false :=
  ⟨rfl, ⟨rfl, rfl⟩,
    (shouldIgnore_negation_wins (filterOf ["git*", "!git status"])
      (fsWithLines ["git*", "!git status"]) "git status" rfl).1 rfl rfl⟩

/-- C4: Every pattern compiles to a regex string of the form
`^<transformed pattern>(?:\s|$)`; with `cd` as the only loaded ignore
pattern, `should_ignore "cd /tmp"` is `True` and `should_ignore "cdx"`
is `False`. -/
theorem pattern_anchoring :
    (∀ p : String, ∃ mid : List Char,
      patternToRegex p = '^' :: (mid ++ boundarySuffix)) ∧
    (should_ignore (filterOf ["cd"]) (fsWithLines ["cd"]) "cd /tmp").1 = true ∧
    (should_ignore (filterOf ["cd"]) (fsWithLines ["cd"]) "cdx").1 = false :=
  ⟨fun p => ⟨classSub (replaceQmark (replaceStar (reEscape p.toList))), rfl⟩, rfl, rfl⟩

/-- C10 (counterexample): with `[a-c]` as the sole loaded pattern the
claim predicts `should_ignore "a" = True`, but the pattern's regex is
invalid (unterminated character set) and is skipped, so the call
returns `False`. -/
theorem class_pattern_counterexample :
    (filterOf ["[a-c]"]).patterns = ["[a-c]"] ∧
    (should_ignore (filterOf ["[a-c]"]) (fsWithLines ["[a-c]"]) "a").1 = false :=
  ⟨rfl, rfl⟩

/-- C10 (amended): compiling `[a-c]` escapes the hyphen and the class
rebuild leaves a trailing escaped bracket, so the regex is invalid
(`re.error`, modelled by `compilePattern = none`) and the pattern is
skipped entirely: with `[a-c]` as the sole loaded pattern, both
`should_ignore "a"` and `should_ignore "b"` return `False`. -/
theorem class_pattern_skipped :
    compilePattern "[a-c]" = none ∧
    (filterOf ["[a-c]"]).patterns = ["[a-c]"] ∧
    (filterOf ["[a-c]"]).compiled_patterns = [] ∧
    (should_ignore (filterOf ["[a-c]"]) (fsWithLines ["[a-c]"]) "a").1 = false ∧
    (should_ignore (filterOf ["[a-c]"]) (fsWithLines ["[a-c]"]) "b").1 = false :=
  ⟨rfl, rfl, rfl, rfl, rfl⟩

/-- C1 (counterexample): constructing over a missing pattern file
creates the default file and leaves the in-memory sets empty, but the
first `should_ignore` call reloads the freshly written default file,
whose uncommented entries (e.g. `cd`) are live — so it returns `True`
for `"cd"`, not `False` as the claim states for every non-empty
command. -/
theorem default_file_counterexample :
    (mkFilter { file := none, clock := 0 }).1 = emptyFilter ∧
    (should_ignore (mkFilter { file := none, clock := 0 }).1
      (mkFilter { file := none, clock := 0 }).2 "cd").1 = true :=
  ⟨rfl, rfl⟩

/-- C1 (amended): if no pattern file exists at construction, a default
file is created and the engine returns with empty pattern sets; the
first `should_ignore` call then reloads the default file, so a
non-empty command matching an uncommented default entry (e.g. `cd`)
returns `True`, while a non-empty command matching no entry (e.g.
`vim main.c`) returns `False`. -/
theorem default_file_behavior :
    mkFilter { file := none, clock := 0 } =
      (emptyFilter,
       { file := some { lines := defaultLines, mtime := 0, readFails := false },
         clock := 1 }) ∧
    (should_ignore (mkFilter { file := none, clock := 0 }).1
      (mkFilter { file := none, clock := 0 }).2 "cd").1 = true ∧
    (should_ignore (mkFilter { file := none, clock := 0 }).1
      (mkFilter { file := none, clock := 0 }).2 "vim main.c").1 = false :=
  ⟨rfl, rfl, rfl⟩

/-- C2 (counterexample): with the file `["foo", "foo"]`,
`remove_pattern "foo"` drops *both* matching lines (the rewritten file
is empty), not only the first one as the claim states. -/
theorem remove_pattern_counterexample :
    (remove_pattern (filterOf ["foo", "foo"]) (fsWithLines ["foo", "foo"]) "foo").1 = true ∧
    (remove_pattern (filterOf ["foo", "foo"]) (fsWithLines ["foo", "foo"]) "foo").2.2.file =
      some { lines := [], mtime := 1, readFails := false } :=
  ⟨rfl, rfl⟩

/-- C2 (amended): `remove_pattern p` rewrites the backing file dropping
*every* line whose stripped form equals `p` or `!p`, returns `True`
exactly when at least one such line exists, and otherwise returns
`False` without modifying the file (a missing file also yields
`False`). -/
theorem remove_pattern_spec (f : Filter) (fs : FSState) (p : String) (file : FileState)
    (hf : fs.file = some file) (hr : file.readFails = false) :
    (remove_pattern f fs p).1 = file.lines.any (removeMatches p) ∧
    (file.lines.any (removeMatches p) = true →
      (remove_pattern f fs p).2.2.file =
        some { lines := file.lines.filter (fun l => !removeMatches p l),
               mtime := fs.clock, readFails := false }) ∧
    (file.lines.any (removeMatches p) = false →
      remove_pattern f fs p = (false, f, fs)) := by
  unfold remove_pattern
  rw [hf]
  dsimp only
  rw [if_neg (by rw [hr]; simp)]
  by_cases hfound : file.lines.any (removeMatches p) = true
  · rw [if_pos hfound]
    refine ⟨by rw [hfound], fun _ => ?_, fun hc => by rw [hfound] at hc; cases hc⟩
    dsimp only
    rw [hr]
    have := loadPatterns_file f
      { file := some { lines := file.lines.filter (fun l => !removeMatches p l),
                       mtime := fs.clock, readFails := false },
        clock := fs.clock + 1 }
      { lines := file.lines.filter (fun l => !removeMatches p l),
        mtime := fs.clock, readFails := false } rfl
    rw [this.1]
  · rw [if_neg hfound]
    have hfalse : file.lines.any (removeMatches p) = false := by
      cases h : file.lines.any (removeMatches p)
      · rfl
      · exact absurd h hfound
    refine ⟨by rw [hfalse], fun hc => ?_, fun _ => rfl⟩
    rw [hfalse] at hc
    cases hc

theorem remove_pattern_spec_witness :
    (fsWithLines ["cd", "!cd", "ls"]).file =
      some { lines := ["cd", "!cd", "ls"], mtime := 0, readFails := false } ∧
    ((remove_pattern (filterOf ["cd", "!cd", "ls"]) (fsWithLines ["cd", "!cd", "ls"]) "cd").1 =
        (["cd", "!cd", "ls"] : List String).any (removeMatches "cd") ∧
      ((["cd", "!cd", "ls"] : List String).any (removeMatches "cd") = true →
        (remove_pattern (filterOf ["cd", "!cd", "ls"]) (fsWithLines ["cd", "!cd", "ls"]) "cd").2.2.file =
          some { lines := (["cd", "!cd", "ls"] : List String).filter
                   (fun l => !removeMatches "cd" l),
                 mtime := 1, readFails := false }) ∧
      ((["cd", "!cd", "ls"] : List String).any (removeMatches "cd") = false →
        remove_pattern (filterOf ["cd", "!cd", "ls"]) (fsWithLines ["cd", "!cd", "ls"]) "cd" =
          (false, filterOf ["cd", "!cd", "ls"], fsWithLines ["cd", "!cd", "ls"]))) :=
  ⟨rfl, remove_pattern_spec (filterOf ["cd", "!cd", "ls"]) (fsWithLines ["cd", "!cd", "ls"])
    "cd" { lines := ["cd", "!cd", "ls"], mtime := 0, readFails := false } rfl rfl⟩

/-- C6: when the backing file exists but reading it fails (permission
or decode error) and the mtime check does not short-circuit, the load
resets both raw pattern lists and both compiled lists to empty and
returns normally (all engine operations are total functions — no
exception propagates); `remove_pattern` likewise absorbs the failure
and returns `False` without modifying anything. -/
theorem loadPatterns_error_resets (f : Filter) (fs : FSState) (file : FileState) (p : String)
    (hf : fs.file = some file) (hr : file.readFails = true)
    (hm : f.last_mtime ≠ some file.mtime) :
    loadPatterns f fs =
      ({ patterns := [], negation_patterns := [], compiled_patterns := [],
         compiled_negation_patterns := [], last_mtime := some file.mtime }, fs) ∧
    remove_pattern f fs p = (false, f, fs) := by
  constructor
  · unfold loadPatterns
    rw [hf]
    dsimp only
    rw [if_neg hm, if_pos hr]
  · unfold remove_pattern
    rw [hf]
    dsimp only
    rw [if_pos hr]

theorem loadPatterns_error_resets_witness :
    (FSState.mk (some { lines := ["cd"], mtime := 9, readFails := true }) 10).file =
      some { lines := ["cd"], mtime := 9, readFails := true } ∧
    (loadPatterns (filterOf ["cd"])
        (FSState.mk (some { lines := ["cd"], mtime := 9, readFails := true }) 10) =
      ({ patterns := [], negation_patterns := [], compiled_patterns := [],
         compiled_negation_patterns := [], last_mtime := some 9 },
       FSState.mk (some { lines := ["cd"], mtime := 9, readFails := true }) 10) ∧
     remove_pattern (filterOf ["cd"])
        (FSState.mk (some { lines := ["cd"], mtime := 9, readFails := true }) 10) "cd" =
      (false, filterOf ["cd"],
       FSState.mk (some { lines := ["cd"], mtime := 9, readFails := true }) 10)) :=
  ⟨rfl, loadPatterns_error_resets (filterOf ["cd"])
    (FSState.mk (some { lines := ["cd"], mtime := 9, readFails := true }) 10)
    { lines := ["cd"], mtime := 9, readFails := true } "cd" rfl rfl (by decide)⟩

/-- C8: when the pattern file exists and the command is non-empty after
stripping, two consecutive `should_ignore` calls with the same command
and no intervening file change return the same result, leave filter and
file system unchanged between the calls, and the second call's reload is
a no-op because the recorded `last_mtime` equals the file's mtime. -/
theorem shouldIgnore_idempotent (f : Filter) (fs : FSState) (cmd : String) (file : FileState)
    (hf : fs.file = some file) (hne : (pyStripL cmd.toList).isEmpty = false) :
    (should_ignore (should_ignore f fs cmd).2.1 (should_ignore f fs cmd).2.2 cmd).1 =
      (should_ignore f fs cmd).1 ∧
    (should_ignore (should_ignore f fs cmd).2.1 (should_ignore f fs cmd).2.2 cmd).2 =
      (should_ignore f fs cmd).2 ∧
    (should_ignore f fs cmd).2.1.last_mtime = some file.mtime ∧
    loadPatterns (should_ignore f fs cmd).2.1 (should_ignore f fs cmd).2.2 =
      ((should_ignore f fs cmd).2.1, (should_ignore f fs cmd).2.2) := by
  have h1 := loadPatterns_file f fs file hf
  have hst : loadPatterns (loadPatterns f fs).1 (loadPatterns f fs).2 =
      ((loadPatterns f fs).1, (loadPatterns f fs).2) := by
    rw [h1.1]
    exact loadPatterns_stable _ fs file hf h1.2
  rw [shouldIgnore_eval f fs cmd hne]
  dsimp only
  rw [shouldIgnore_eval _ _ cmd hne, hst]
  exact ⟨rfl, rfl, h1.2, rfl⟩

theorem shouldIgnore_idempotent_witness :
    (fsWithLines ["cd"]).file = some { lines := ["cd"], mtime := 0, readFails := false } ∧
    (pyStripL "cd x".toList).isEmpty = false ∧
    ((should_ignore (should_ignore (filterOf ["cd"]) (fsWithLines ["cd"]) "cd x").2.1
        (should_ignore (filterOf ["cd"]) (fsWithLines ["cd"]) "cd x").2.2 "cd x").1 =
      (should_ignore (filterOf ["cd"]) (fsWithLines ["cd"]) "cd x").1 ∧
     (should_ignore (should_ignore (filterOf ["cd"]) (fsWithLines ["cd"]) "cd x").2.1
        (should_ignore (filterOf ["cd"]) (fsWithLines ["cd"]) "cd x").2.2 "cd x").2 =
      (should_ignore (filterOf ["cd"]) (fsWithLines ["cd"]) "cd x").2 ∧
     (should_ignore (filterOf ["cd"]) (fsWithLines ["cd"]) "cd x").2.1.last_mtime = some 0 ∧
     loadPatterns (should_ignore (filterOf ["cd"]) (fsWithLines ["cd"]) "cd x").2.1
        (should_ignore (filterOf ["cd"]) (fsWithLines ["cd"]) "cd x").2.2 =
      ((should_ignore (filterOf ["cd"]) (fsWithLines ["cd"]) "cd x").2.1,
       (should_ignore (filterOf ["cd"]) (fsWithLines ["cd"]) "cd x").2.2)) :=
  ⟨rfl, rfl, shouldIgnore_idempotent (filterOf ["cd"]) (fsWithLines ["cd"]) "cd x"
    { lines := ["cd"], mtime := 0, readFails := false } rfl rfl⟩

theorem add_list_eq (f : Filter) (fs : FSState) (p : String)
    (hok : ∀ file, fs.file = some file → file.readFails = false)
    (hclk : f.last_mtime ≠ some fs.clock) :
    (list_patterns (add_pattern f fs p).1 (add_pattern f fs p).2).1 =
      (parseLines ((fs.file.elim [] FileState.lines) ++ ["", p])).1 ++
      ((parseLines ((fs.file.elim [] FileState.lines) ++ ["", p])).2.map
        (fun q => "!" ++ q)) := by
  cases hcase : fs.file with
  | none =>
    have hload : add_pattern f fs p =
        ({ f with patterns := (parseLines ["", p]).1,
                  negation_patterns := (parseLines ["", p]).2,
                  compiled_patterns := (parseLines ["", p]).1.filterMap compilePattern,
                  compiled_negation_patterns :=
                    (parseLines ["", p]).2.filterMap compilePattern,
                  last_mtime := some fs.clock },
         { file := some { lines := ["", p], mtime := fs.clock, readFails := false },
           clock := fs.clock + 1 }) := by
      unfold add_pattern loadPatterns
      rw [hcase]
      dsimp only
      rw [if_neg hclk]
      rfl
    rw [hload]
    unfold list_patterns
    rw [loadPatterns_stable _ _
      { lines := ["", p], mtime := fs.clock, readFails := false } rfl rfl]
    simp
  | some file =>
    have hr : file.readFails = false := hok file hcase
    have hload : add_pattern f fs p =
        ({ f with patterns := (parseLines (file.lines ++ ["", p])).1,
                  negation_patterns := (parseLines (file.lines ++ ["", p])).2,
                  compiled_patterns :=
                    (parseLines (file.lines ++ ["", p])).1.filterMap compilePattern,
                  compiled_negation_patterns :=
                    (parseLines (file.lines ++ ["", p])).2.filterMap compilePattern,
                  last_mtime := some fs.clock },
         { file := some { lines := file.lines ++ ["", p], mtime := fs.clock,
                          readFails := file.readFails },
           clock := fs.clock + 1 }) := by
      unfold add_pattern loadPatterns
      rw [hcase]
      dsimp only
      rw [if_neg hclk]
      rw [if_neg (by rw [hr]; simp)]
    rw [hload]
    unfold list_patterns
    rw [loadPatterns_stable _ _
      { lines := file.lines ++ ["", p], mtime := fs.clock,
        readFails := file.readFails } rfl rfl]
    simp

/-- C7: round-trip through the file: `add_pattern "foo*"` followed by
`list_patterns` yields a list containing `"foo*"`, and
`add_pattern "!foo"` followed by `list_patterns` yields a list
containing `"!foo"` (the negation re-emerges with its `!` prefix);
shown for any state whose file (if present) is readable and whose
recorded mtime is not already the clock value the write will stamp. -/
theorem add_pattern_roundtrip (f : Filter) (fs : FSState)
    (hok : ∀ file, fs.file = some file → file.readFails = false)
    (hclk : f.last_mtime ≠ some fs.clock) :
    "foo*" ∈ (list_patterns (add_pattern f fs "foo*").1
      (add_pattern f fs "foo*").2).1 ∧
    "!foo" ∈ (list_patterns (add_pattern f fs "!foo").1
      (add_pattern f fs "!foo").2).1 := by
  constructor
  · rw [add_list_eq f fs "foo*" hok hclk, parseLines_append]
    apply List.mem_append_left
    apply List.mem_append_right
    rw [show (parseLines ["", "foo*"]).1 = ["foo*"] from rfl]
    simp
  · rw [add_list_eq f fs "!foo" hok hclk, parseLines_append]
    apply List.mem_append_right
    rw [show (parseLines ["", "!foo"]).2 = ["foo"] from rfl]
    rw [List.map_append]
    apply List.mem_append_right
    simp

theorem add_pattern_roundtrip_witness :
    "foo*" ∈ (list_patterns (add_pattern emptyFilter ⟨none, 0⟩ "foo*").1
      (add_pattern emptyFilter ⟨none, 0⟩ "foo*").2).1 ∧
    "!foo" ∈ (list_patterns (add_pattern emptyFilter ⟨none, 0⟩ "!foo").1
      (add_pattern emptyFilter ⟨none, 0⟩ "!foo").2).1 :=
  add_pattern_roundtrip emptyFilter ⟨none, 0⟩ (fun file h => by cases h) (by decide)

/-- C5 (counterexample): the claim is false when a negation pattern also
matches — with file `["cd", "!cd"]`, the wildcard-free pattern `cd` is
among the loaded ignore patterns and the command `"cd"`'s first token
equals it, yet `should_ignore` returns `False` because the negation
overrides. -/
theorem first_token_counterexample :
    "cd" ∈ (filterOf ["cd", "!cd"]).patterns ∧
    pyStripL "cd".toList = "cd".toList ++ [] ∧
    (should_ignore (filterOf ["cd", "!cd"]) (fsWithLines ["cd", "!cd"]) "cd").1 = false :=
  ⟨by decide, rfl, rfl⟩

/-- C5 (amended): for every wildcard-free pattern `P` among the loaded
ignore patterns (in a state in sync with its file, with the compiled
list the compilation of the pattern list) and every command `C` that
begins with `P` followed by whitespace or end of string (in particular
whenever `C`'s first whitespace-delimited token equals `P`),
`should_ignore C` returns `True` — provided no loaded negation pattern
matches `C`. -/
theorem shouldIgnore_first_token (f : Filter) (fs : FSState) (P C : String) (t : List Char)
    (hst : loadPatterns f fs = (f, fs))
    (hwf : f.compiled_patterns = f.patterns.filterMap compilePattern)
    (hmem : P ∈ f.patterns)
    (hnw : noWild P)
    (hP : P.toList ≠ [])
    (htok : pyStripL C.toList = P.toList ++ t)
    (hbd : t = [] ∨ ∃ d t', t = d :: t' ∧ isPySpace d = true)
    (hneg : ∀ es ∈ f.compiled_negation_patterns,
      rmatch es (pyStripL C.toList) = false) :
    (should_ignore f fs C).1 = true := by
  have hne : (pyStripL C.toList).isEmpty = false := by
    rw [htok]
    cases hPl : P.toList with
    | nil => exact absurd hPl hP
    | cons a l => simp
  rw [shouldIgnore_eval f fs C hne, hst]
  dsimp only
  have hcomp := compilePattern_noWild P hnw
  have hmem2 : (P.toList.map RElem.lit ++ [RElem.boundary]) ∈ f.compiled_patterns := by
    rw [hwf]
    exact List.mem_filterMap.mpr ⟨P, hmem, hcomp⟩
  have hmatch : rmatch (P.toList.map RElem.lit ++ [RElem.boundary])
      (pyStripL C.toList) = true := by
    rw [htok]
    unfold rmatch
    apply rmatchF_lits P.toList _ t _ hbd
    simp only [List.length_append, List.length_map, List.length_cons]
    omega
  have hany : f.compiled_patterns.any
      (fun es => rmatch es (pyStripL C.toList)) = true :=
    List.any_eq_true.mpr ⟨_, hmem2, hmatch⟩
  rw [if_pos hany]
  have hnany : f.compiled_negation_patterns.any
      (fun es => rmatch es (pyStripL C.toList)) = false := by
    rw [List.any_eq_false]
    intro es hes
    rw [hneg es hes]
    simp
  rw [if_neg (by rw [hnany]; simp)]

theorem shouldIgnore_first_token_witness :
    "cd" ∈ (filterOf ["cd"]).patterns ∧
    pyStripL "cd /tmp".toList = "cd".toList ++ [' ', '/', 't', 'm', 'p'] ∧
    (should_ignore (filterOf ["cd"]) (fsWithLines ["cd"]) "cd /tmp").1 = true :=
  ⟨by decide, rfl,
    shouldIgnore_first_token (filterOf ["cd"]) (fsWithLines ["cd"]) "cd" "cd /tmp"
      [' ', '/', 't', 'm', 'p'] rfl rfl (by decide) (by decide) (by decide) rfl
      (Or.inr ⟨' ', ['/', 't', 'm', 'p'], rfl, by decide⟩)
      (fun es hes => by
        rw [show (filterOf ["cd"]).compiled_negation_patterns =
          ([] : List (List RElem)) from rfl] at hes
        cases hes)⟩

end WakaTerm
